import Mathlib

/-!
Shallow embedding of the ClientService repository (Go): the `handlers`
package (validation functions and the CRUD handlers over a relational
store) and the query-parameter handling of the list endpoint.

Modelling conventions:
* Go strings are Lean `String`s (sequences of unicode scalar values); Go
  `len(s)` counts UTF-8 bytes and is modelled by `goLen`.
* The clients table is a `List Client`; SQL execution is modelled by pure
  functions on that list, and each handler additionally returns the trace
  of store operations (`DbOp`) it issued, so "no store call happened" is
  expressible.
* Store/connection failures are modelled by a `dbFail : Bool` flag: when
  true every issued store operation fails (the Go 500 branch).
* JSON response bodies are a small `Json` value type; `http.Error` plain
  text bodies are `Body.text`.  The Go `json` encoding of a nil slice is
  `Json.null` and of a non-nil slice is `Json.arr`, which the model keeps
  via `encodeClientSlice : Option (List Client) → Json`.
* Request-body decoding is abstracted as `Option Client` (`none` = the
  decoder returned an error).
* `uuid.New().String()` is modelled by `uuidString` applied to the 16
  random bytes drawn by the generator.
-/

/-- The `Client` struct of the handlers package.  The Go zero value of
`comment` is `""`; the field carries `json:"comment,omitempty"`. -/
structure Client where
  id : String
  name : String
  phone : String
  email : String
  comment : String
deriving Repr, DecidableEq

/-- Go `len` on a string: the number of UTF-8 bytes. -/
def charUtf8Bytes (c : Char) : Nat :=
  if c.toNat < 128 then 1
  else if c.toNat < 2048 then 2
  else if c.toNat < 65536 then 3
  else 4

/-- Byte length of a Go string (`len(s)`). -/
def goLen (s : String) : Nat :=
  s.data.foldl (fun n c => n + charUtf8Bytes c) 0

/-- Drop one leading `'+'` if present: the `\+?` part of the phone regex. -/
def stripPlus (cs : List Char) : List Char :=
  match cs with
  | [] => []
  | c :: rest => if c = '+' then rest else c :: rest

/-- `validatePhone`: the language of the anchored regex `^\+?\d{10,15}$`
from the handlers package, decided directly: an optional leading `'+'`
followed by 10 to 15 ASCII digits and nothing else. -/
def validatePhone (phone : String) : Bool :=
  let ds := stripPlus phone.data
  decide (10 ≤ ds.length) && decide (ds.length ≤ 15) && ds.all Char.isDigit

/-- Character class `[a-zA-Z0-9._%+-]` of the email regex (local part). -/
def localChar (c : Char) : Bool :=
  c.isAlpha || c.isDigit || c = '.' || c = '_' || c = '%' || c = '+' || c = '-'

/-- Character class `[a-zA-Z0-9.-]` of the email regex (domain part). -/
def domainChar (c : Char) : Bool :=
  c.isAlpha || c.isDigit || c = '.' || c = '-'

/-- Split a list at the first occurrence of `p`: `some (before, after)`
when `p` occurs, `none` otherwise. -/
def splitFirst (p : Char) : List Char → Option (List Char × List Char)
  | [] => none
  | c :: rest =>
    if c = p then some ([], rest)
    else (splitFirst p rest).map (fun ab => (c :: ab.1, ab.2))

/-- Split a list at the last occurrence of `p`. -/
def splitLast (p : Char) (cs : List Char) : Option (List Char × List Char) :=
  match splitFirst p cs.reverse with
  | none => none
  | some ab => some (ab.2.reverse, ab.1.reverse)

/-- `validateEmail`: the language of the anchored regex
`^[a-zA-Z0-9._%+-]+@[a-zA-Z0-9.-]+\.[a-zA-Z]{2,}$` from the handlers
package, decided directly.  A matching string has exactly one `'@'` (no
character class of the regex contains `'@'`), and the `\.` separating the
domain from the `[a-zA-Z]{2,}` suffix is necessarily the last `'.'` after
the `'@'` (the suffix is all letters), so the split points are unique. -/
def validateEmail (email : String) : Bool :=
  match splitFirst '@' email.data with
  | none => false
  | some lr =>
    match splitLast '.' lr.2 with
    | none => false
    | some dt =>
      decide (lr.1 ≠ []) && lr.1.all localChar &&
      decide (dt.1 ≠ []) && dt.1.all domainChar &&
      decide (2 ≤ dt.2.length) && dt.2.all Char.isAlpha

/-- The language of the phone regex `^\+?\d{10,15}$`, transcribed from
the pattern itself: some decomposition into an optional `'+'` and a run
of 10–15 digits covers the whole string. -/
def PhonePattern (s : String) : Prop :=
  ∃ opt ds, s.data = opt ++ ds ∧ (opt = [] ∨ opt = ['+']) ∧
    10 ≤ ds.length ∧ ds.length ≤ 15 ∧ ∀ c ∈ ds, c.isDigit = true

/-- The language of the email regex
`^[a-zA-Z0-9._%+-]+@[a-zA-Z0-9.-]+\.[a-zA-Z]{2,}$`, transcribed from the
pattern itself: some decomposition `local ++ "@" ++ domain ++ "." ++ tld`
with nonempty class-conforming `local` and `domain` and an all-letter
`tld` of length at least 2 covers the whole string. -/
def EmailPattern (s : String) : Prop :=
  ∃ l d t, s.data = l ++ '@' :: (d ++ '.' :: t) ∧
    l ≠ [] ∧ (∀ c ∈ l, localChar c = true) ∧
    d ≠ [] ∧ (∀ c ∈ d, domainChar c = true) ∧
    2 ≤ t.length ∧ ∀ c ∈ t, c.isAlpha = true

/-- JSON values, as produced by the Go `encoding/json` encoder for the
types this service serializes. -/
inductive Json where
  | null
  | str (s : String)
  | arr (elems : List Json)
  | obj (fields : List (String × Json))
deriving Repr

/-- A response body: `http.Error` writes plain text, the success paths
write JSON via `json.NewEncoder(w).Encode`. -/
inductive Body where
  | text (s : String)
  | json (j : Json)
deriving Repr

/-- An HTTP response as the handlers produce it: status code and body. -/
structure Response where
  status : Nat
  body : Body
deriving Repr

/-- Go `json` encoding of a `Client` value: `comment` carries
`omitempty`, so it is omitted when it is the empty string. -/
def encodeClient (c : Client) : Json :=
  Json.obj
    ([("id", Json.str c.id), ("name", Json.str c.name),
      ("phone", Json.str c.phone), ("email", Json.str c.email)] ++
     (if c.comment = "" then [] else [("comment", Json.str c.comment)]))

/-- Go `json` encoding of a `[]Client` slice: a nil slice encodes as
`null`, a non-nil (possibly empty) slice as an array. -/
def encodeClientSlice : Option (List Client) → Json
  | none => Json.null
  | some cs => Json.arr (cs.map encodeClient)

/-- The store operations a handler can issue (the SQL statements of the
handlers package, with their parameters). -/
inductive DbOp where
  | insertOp (c : Client)
  | selectById (id : String)
  | selectList (limit offset : Int)
  | updateOp (id name phone email comment : String)
  | deleteOp (id : String)
deriving Repr, DecidableEq

/-- Value of a decimal digit list (no sign), most significant first. -/
def digitsToNat (ds : List Char) : Nat :=
  ds.foldl (fun n c => n * 10 + (c.toNat - 48)) 0

/-- Go `strconv.Atoi`: optional single leading sign, then one or more
ASCII digits and nothing else; values outside the 64-bit `int` range are
an error (`ErrRange`).  `none` models any returned error. -/
def atoi (s : String) : Option Int :=
  match s.data with
  | [] => none
  | c :: rest =>
    let neg := c = '-'
    let ds := if c = '-' || c = '+' then rest else c :: rest
    if ds = [] then none
    else if ds.all Char.isDigit then
      let v : Int := if neg then -(digitsToNat ds : Int) else (digitsToNat ds : Int)
      if v < -(2 ^ 63) ∨ (2 ^ 63 - 1 : Int) < v then none else some v
    else none

/-- `url.Values.Get`: the first value bound to `key`, or `""` when the
key is absent from the query. -/
def queryGet (q : List (String × String)) (key : String) : String :=
  match q.find? (fun kv => kv.1 = key) with
  | some kv => kv.2
  | none => ""

/-- One pagination parameter of `GetClients`: an empty raw value (absent
parameter, or present with an empty value) yields the default; otherwise
the `strconv.Atoi` result must be a non-negative int (`err != nil ||
val < 0` rejects). -/
def parseParam (raw : String) (dflt : Int) : Option Int :=
  if raw = "" then some dflt
  else
    match atoi raw with
    | none => none
    | some v => if v < 0 then none else some v

/-- Rows returned by `SELECT … LIMIT $1 OFFSET $2` on a table whose
natural order is the list order (limit and offset already checked
non-negative by the handler). -/
def listRows (db : List Client) (limit offset : Int) : List Client :=
  (db.drop offset.toNat).take limit.toNat

/-- `uuid.New()` forces the version-4/variant bits into bytes 6 and 8 of
the 16 random bytes: `b[6] = (b[6] & 0x0f) | 0x40`,
`b[8] = (b[8] & 0x3f) | 0x80`. -/
def uuidSetBits (r : List Nat) : List Nat :=
  (r.set 6 ((r.getD 6 0) % 16 + 64)).set 8 ((r.getD 8 0) % 64 + 128)

/-- Lower-case hex digit. -/
def hexDigit (n : Nat) : Char :=
  if n < 10 then Char.ofNat (48 + n) else Char.ofNat (87 + n)

/-- Two lower-case hex digits of one byte. -/
def byteHex (b : Nat) : List Char :=
  [hexDigit (b / 16 % 16), hexDigit (b % 16)]

/-- Hex encoding of a byte list. -/
def bytesHex (bs : List Nat) : List Char :=
  (bs.map byteHex).flatten

/-- `uuid.New().String()` on the 16 random bytes `r`: the canonical
8-4-4-4-12 dashed hex form. -/
def uuidString (r : List Nat) : String :=
  let b := uuidSetBits r
  String.mk (bytesHex (b.take 4) ++ '-' :: bytesHex ((b.drop 4).take 2) ++
    '-' :: bytesHex ((b.drop 6).take 2) ++ '-' :: bytesHex ((b.drop 8).take 2) ++
    '-' :: bytesHex (b.drop 10))

/-- The result of a handler that can write to the store: the response,
the trace of store operations issued, and the table afterwards. -/
structure ExecResult where
  resp : Response
  ops : List DbOp
  db : List Client
deriving Repr

/-- `CreateClient` of the handlers package.  `body` is the decoded
request body (`none` = JSON decode error), `r` the random bytes the uuid
generator draws, `dbFail` whether the `INSERT` fails. -/
def CreateClient (db : List Client) (body : Option Client) (r : List Nat)
    (dbFail : Bool) : ExecResult :=
  match body with
  | none => ⟨⟨400, Body.text "Invalid request body"⟩, [], db⟩
  | some client =>
    if !validatePhone client.phone || !validateEmail client.email then
      ⟨⟨400, Body.text "Invalid phone or email format"⟩, [], db⟩
    else if 255 < goLen client.comment then
      ⟨⟨400, Body.text "Comment is too long"⟩, [], db⟩
    else
      let c := { client with id := uuidString r }
      if dbFail then
        ⟨⟨500, Body.text "Internal server error"⟩, [DbOp.insertOp c], db⟩
      else
        ⟨⟨201, Body.json (encodeClient c)⟩, [DbOp.insertOp c], db ++ [c]⟩

/-- Row update of `UPDATE clients SET name=$1, phone=$2, email=$3,
comment=$4 WHERE id=$5`: every row matching `id` gets the new fields,
its key unchanged. -/
def updateRows (db : List Client) (id name phone email comment : String) :
    List Client :=
  db.map (fun row =>
    if row.id == id then
      { row with name := name, phone := phone, email := email, comment := comment }
    else row)

/-- Affected-row count of a `WHERE id = $n` statement. -/
def affectedRows (db : List Client) (id : String) : Nat :=
  (db.filter (fun row => row.id == id)).length

/-- `UpdateClient` of the handlers package.  `pathId` is the `:id` path
parameter, `body` the decoded request body, `dbFail` whether the
`UPDATE` fails.  Validation order: email, phone, comment length.  On
success the handler encodes the decoded `client` value itself — whose
`id` field is whatever the request body carried (the path id is used
only in the SQL `WHERE`). -/
def UpdateClient (db : List Client) (pathId : String) (body : Option Client)
    (dbFail : Bool) : ExecResult :=
  match body with
  | none => ⟨⟨400, Body.text "Invalid request body"⟩, [], db⟩
  | some client =>
    if !validateEmail client.email then
      ⟨⟨400, Body.text "Invalid email format"⟩, [], db⟩
    else if !validatePhone client.phone then
      ⟨⟨400, Body.text "Invalid phone format"⟩, [], db⟩
    else if 255 < goLen client.comment then
      ⟨⟨400, Body.text "Comment is too long"⟩, [], db⟩
    else
      let op := DbOp.updateOp pathId client.name client.phone client.email client.comment
      if dbFail then
        ⟨⟨500, Body.text "Internal server error"⟩, [op], db⟩
      else if affectedRows db pathId = 0 then
        ⟨⟨404, Body.text "Client not found"⟩, [op], db⟩
      else
        ⟨⟨200, Body.json (encodeClient client)⟩, [op],
          updateRows db pathId client.name client.phone client.email client.comment⟩

/-- `GetClients` of the handlers package: parse `limit` (default 10) and
`offset` (default 0) from the query, reject a present value that is not
a non-negative integer with 400 naming the parameter, then run the
`SELECT`.  The Go code builds `clients := []Client{}` (a non-nil slice)
before scanning, so the encoded body is an array even with zero rows. -/
def GetClients (db : List Client) (q : List (String × String))
    (dbFail : Bool) : Response × List DbOp :=
  match parseParam (queryGet q "limit") 10 with
  | none => (⟨400, Body.text "Invalid limit value"⟩, [])
  | some limit =>
    match parseParam (queryGet q "offset") 0 with
    | none => (⟨400, Body.text "Invalid offset value"⟩, [])
    | some offset =>
      if dbFail then
        (⟨500, Body.text "Internal server error"⟩, [DbOp.selectList limit offset])
      else
        (⟨200, Body.json (encodeClientSlice (some (listRows db limit offset)))⟩,
          [DbOp.selectList limit offset])

example : validatePhone "1234567890" = true := by decide
example : validatePhone "+123456789012345" = true := by decide
example : validatePhone "" = false := by decide
example : validatePhone "123" = false := by decide
example : validatePhone "12345abcde" = false := by decide
example : validateEmail "a@b.co" = true := by decide
example : validateEmail "user.name+tag@sub.example.com" = true := by decide
example : validateEmail "a@b.c" = false := by decide
example : validateEmail "ab.co" = false := by decide
example : validateEmail "a@bco" = false := by decide

/-! ### Lemmas about the split helpers -/

theorem splitFirst_eq_some {p : Char} {cs a b : List Char}
    (h : splitFirst p cs = some (a, b)) : cs = a ++ p :: b ∧ p ∉ a := by
  induction cs generalizing a with
  | nil => simp [splitFirst] at h
  | cons c rest ih =>
    by_cases hc : c = p
    · subst hc
      simp [splitFirst] at h
      obtain ⟨ha, hb⟩ := h
      subst ha
      subst hb
      exact ⟨rfl, by simp⟩
    · simp only [splitFirst, if_neg hc, Option.map_eq_some'] at h
      obtain ⟨ab, hsome, heq⟩ := h
      have ha : a = c :: ab.1 := (congrArg Prod.fst heq).symm
      have hb : b = ab.2 := (congrArg Prod.snd heq).symm
      subst ha
      subst hb
      obtain ⟨hrest, hnot⟩ := ih (a := ab.1) (by rw [hsome])
      refine ⟨by rw [hrest]; rfl, ?_⟩
      intro hmem
      rcases List.mem_cons.mp hmem with h1 | h1
      · exact hc h1.symm
      · exact hnot h1

theorem splitFirst_of_eq {p : Char} {a b : List Char} (ha : p ∉ a) :
    splitFirst p (a ++ p :: b) = some (a, b) := by
  induction a with
  | nil => simp [splitFirst]
  | cons c a ih =>
    have hc : c ≠ p := fun h => ha (by simp [h])
    have ih' := ih (fun h => ha (List.mem_cons_of_mem _ h))
    simp [splitFirst, hc, ih']

theorem splitLast_eq_some {p : Char} {cs d t : List Char}
    (h : splitLast p cs = some (d, t)) : cs = d ++ p :: t ∧ p ∉ t := by
  unfold splitLast at h
  cases hsp : splitFirst p cs.reverse with
  | none => rw [hsp] at h; simp at h
  | some ab =>
    rw [hsp] at h
    simp only [Option.some.injEq, Prod.mk.injEq] at h
    obtain ⟨hd, ht⟩ := h
    obtain ⟨hcs, hnot⟩ := splitFirst_eq_some hsp
    constructor
    · have := congrArg List.reverse hcs
      simp only [List.reverse_reverse, List.reverse_append, List.reverse_cons] at this
      rw [this, ← hd, ← ht]
      simp
    · rw [← ht]
      simpa using hnot

theorem splitLast_of_eq {p : Char} {d t : List Char} (ht : p ∉ t) :
    splitLast p (d ++ p :: t) = some (d, t) := by
  unfold splitLast
  have hrev : (d ++ p :: t).reverse = t.reverse ++ p :: d.reverse := by
    simp [List.reverse_append]
  rw [hrev, splitFirst_of_eq (by simpa using ht)]
  simp

/-! ### The validation functions decide exactly the regex languages -/

theorem validatePhone_iff (s : String) :
    validatePhone s = true ↔ PhonePattern s := by
  constructor
  · intro h
    unfold validatePhone at h
    simp only [Bool.and_eq_true, decide_eq_true_eq, List.all_eq_true] at h
    obtain ⟨⟨h10, h15⟩, hdig⟩ := h
    by_cases hplus : ∃ rest, s.data = '+' :: rest
    · obtain ⟨rest, hrest⟩ := hplus
      have hds : stripPlus s.data = rest := by rw [hrest]; simp [stripPlus]
      rw [hds] at h10 h15 hdig
      exact ⟨['+'], rest, by rw [hrest]; rfl, Or.inr rfl, h10, h15, hdig⟩
    · have hds : stripPlus s.data = s.data := by
        cases hcs : s.data with
        | nil => simp [stripPlus]
        | cons c rest =>
          have hc : c ≠ '+' := fun hceq => hplus ⟨rest, by rw [hcs, hceq]⟩
          simp [stripPlus, hc]
      rw [hds] at h10 h15 hdig
      exact ⟨[], s.data, by simp, Or.inl rfl, h10, h15, hdig⟩
  · rintro ⟨opt, ds, hsplit, hopt | hopt, h10, h15, hdig⟩
    · subst hopt
      simp only [List.nil_append] at hsplit
      have hds : stripPlus s.data = s.data := by
        rw [hsplit]
        cases hd : ds with
        | nil => simp [stripPlus]
        | cons c rest =>
          have hcdig : c.isDigit = true := hdig c (by rw [hd]; exact List.mem_cons_self c rest)
          have hc : c ≠ '+' := by
            intro hceq
            rw [hceq] at hcdig
            exact absurd hcdig (by decide)
          simp [stripPlus, hc]
      unfold validatePhone
      simp only [Bool.and_eq_true, decide_eq_true_eq, List.all_eq_true]
      rw [hds, hsplit]
      exact ⟨⟨h10, h15⟩, hdig⟩
    · subst hopt
      have hds : stripPlus s.data = ds := by rw [hsplit]; simp [stripPlus]
      unfold validatePhone
      simp only [Bool.and_eq_true, decide_eq_true_eq, List.all_eq_true]
      rw [hds]
      exact ⟨⟨h10, h15⟩, hdig⟩

theorem validateEmail_iff (s : String) :
    validateEmail s = true ↔ EmailPattern s := by
  constructor
  · intro h
    cases hat : splitFirst '@' s.data with
    | none => simp [validateEmail, hat] at h
    | some lr =>
      simp only [validateEmail, hat] at h
      cases hdot : splitLast '.' lr.2 with
      | none => rw [hdot] at h; simp at h
      | some dt =>
        rw [hdot] at h
        simp only [Bool.and_eq_true, decide_eq_true_eq, List.all_eq_true] at h
        obtain ⟨⟨⟨⟨⟨hl, hlall⟩, hd⟩, hdall⟩, ht2⟩, htall⟩ := h
        obtain ⟨hcs, -⟩ := splitFirst_eq_some hat
        obtain ⟨hr, -⟩ := splitLast_eq_some hdot
        exact ⟨lr.1, dt.1, dt.2, by rw [hcs, hr], hl, hlall, hd, hdall, ht2, htall⟩
  · rintro ⟨l, d, t, hsplit, hl, hlall, hd, hdall, ht2, htall⟩
    have hatl : '@' ∉ l := by
      intro hmem
      exact absurd (hlall _ hmem) (by decide)
    have hdott : '.' ∉ t := by
      intro hmem
      exact absurd (htall _ hmem) (by decide)
    have hat : splitFirst '@' s.data = some (l, d ++ '.' :: t) := by
      rw [hsplit]; exact splitFirst_of_eq hatl
    have hdot : splitLast '.' (d ++ '.' :: t) = some (d, t) := splitLast_of_eq hdott
    simp only [validateEmail, hat, hdot, Bool.and_eq_true, decide_eq_true_eq,
      List.all_eq_true]
    exact ⟨⟨⟨⟨⟨hl, hlall⟩, hd⟩, hdall⟩, ht2⟩, htall⟩

/-! ### Claim theorems -/

/-- Claim C8: for every string `s`, `validatePhone s` is true exactly when
the whole string lies in the language of `^\+?\d{10,15}$` (optional
leading `+` followed by 10–15 digits); it is a pure function, and in
particular it rejects the empty string, strings with letters, and strings
with fewer than 10 or more than 15 digits. -/
theorem validatePhone_spec :
    (∀ s : String, validatePhone s = true ↔ PhonePattern s) ∧
    validatePhone "" = false ∧
    validatePhone "12345abcde" = false ∧
    validatePhone "123456789" = false ∧
    validatePhone "+123456789" = false ∧
    validatePhone "1234567890123456" = false ∧
    validatePhone "+1234567890123456" = false :=
  ⟨validatePhone_iff, by decide, by decide, by decide, by decide, by decide, by decide⟩

/-- Claim C9: for every string `s`, `validateEmail s` is true exactly when
the whole string lies in the language of
`^[A-Za-z0-9._%+-]+@[A-Za-z0-9.-]+\.[A-Za-z]{2,}$`; it is a pure
function, and in particular strings missing `@`, missing a dot in the
domain, or ending in a one-letter top-level label are rejected. -/
theorem validateEmail_spec :
    (∀ s : String, validateEmail s = true ↔ EmailPattern s) ∧
    validateEmail "plainaddress" = false ∧
    validateEmail "a@bco" = false ∧
    validateEmail "a@b.c" = false :=
  ⟨validateEmail_iff, by decide, by decide, by decide⟩

/-- Claim C1 (evaluation at the failing input): a successful update of the
row with path id `"p1"` whose request body carries id `"b1"` answers 200,
but the record in the response carries the id `"b1"` taken from the
request body, while the row actually updated in the store keeps its id
`"p1"` — the handler never overwrites `client.ID` with the path id before
encoding the response. -/
theorem updateClient_response_id_from_body :
    (UpdateClient [⟨"p1", "old", "1234567890", "old@ex.com", ""⟩] "p1"
        (some ⟨"b1", "n", "1234567890", "a@b.co", ""⟩) false).resp =
      ⟨200, Body.json (Json.obj [("id", Json.str "b1"), ("name", Json.str "n"),
        ("phone", Json.str "1234567890"), ("email", Json.str "a@b.co")])⟩ ∧
    (UpdateClient [⟨"p1", "old", "1234567890", "old@ex.com", ""⟩] "p1"
        (some ⟨"b1", "n", "1234567890", "a@b.co", ""⟩) false).db =
      [⟨"p1", "n", "1234567890", "a@b.co", ""⟩] ∧
    "b1" ≠ "p1" :=
  ⟨rfl, rfl, by decide⟩

/-- Claim C4: for every update request whose body decodes, `UpdateClient`
checks email first, then phone, then comment length, each short-circuiting
with its own 400 response and no store operation; under simultaneous
violations the email error is reported. -/
theorem updateClient_validation_order (db : List Client) (pathId : String)
    (c : Client) (dbFail : Bool) :
    (validateEmail c.email = false →
      UpdateClient db pathId (some c) dbFail =
        ⟨⟨400, Body.text "Invalid email format"⟩, [], db⟩) ∧
    (validateEmail c.email = true → validatePhone c.phone = false →
      UpdateClient db pathId (some c) dbFail =
        ⟨⟨400, Body.text "Invalid phone format"⟩, [], db⟩) ∧
    (validateEmail c.email = true → validatePhone c.phone = true →
      255 < goLen c.comment →
      UpdateClient db pathId (some c) dbFail =
        ⟨⟨400, Body.text "Comment is too long"⟩, [], db⟩) := by
  refine ⟨fun he => ?_, fun he hp => ?_, fun he hp hc => ?_⟩
  · simp [UpdateClient, he]
  · simp [UpdateClient, he, hp]
  · simp [UpdateClient, he, hp, hc]

/-- Witness for C4 at a concrete input with all three violations at once
(invalid email, invalid phone, over-long comment): the email error is the
one reported, with no store operation and an unchanged table. -/
theorem updateClient_validation_order_witness :
    UpdateClient [] "p1"
        (some ⟨"", "n", "123", "bad", String.mk (List.replicate 256 'a')⟩) false =
      ⟨⟨400, Body.text "Invalid email format"⟩, [], []⟩ :=
  (updateClient_validation_order [] "p1"
    ⟨"", "n", "123", "bad", String.mk (List.replicate 256 'a')⟩ false).1 (by decide)

/-- Claim C10: a `limit` or `offset` query parameter that is present but
bound to the empty string is indistinguishable from an absent parameter
(`url.Values.Get` returns `""` in both cases), so the handler applies the
defaults limit=10, offset=0 and answers 200 rather than 400. -/
theorem getClients_empty_param_default (db : List Client) (dbFail : Bool) :
    GetClients db [("limit", ""), ("offset", "")] dbFail = GetClients db [] dbFail ∧
    GetClients db [("limit", "")] dbFail = GetClients db [] dbFail ∧
    GetClients db [("offset", "")] dbFail = GetClients db [] dbFail ∧
    (GetClients db [("limit", ""), ("offset", "")] false).2 = [DbOp.selectList 10 0] ∧
    (GetClients db [("limit", ""), ("offset", "")] false).1.status = 200 :=
  ⟨rfl, rfl, rfl, rfl, rfl⟩

/-- A UUID string is never empty: the canonical form always contains the
four dashes, whatever the byte list is. -/
theorem uuidString_ne_empty (r : List Nat) : uuidString r ≠ "" := by
  unfold uuidString
  intro h
  have hdata := congrArg String.data h
  simp at hdata

set_option maxRecDepth 8000 in
/-- Claim C2 (counterexample): the handlers measure the comment with Go
`len`, i.e. in UTF-8 bytes, not characters.  A comment of exactly 255
characters `é` (two bytes each, 510 bytes) is rejected with 400 by both
create and update even though phone and email are valid, refuting "a
comment of exactly 255 characters is accepted". -/
theorem comment255_chars_rejected :
    (String.mk (List.replicate 255 'é')).length = 255 ∧
    validatePhone "1234567890" = true ∧ validateEmail "a@b.co" = true ∧
    (CreateClient [] (some ⟨"", "n", "1234567890", "a@b.co",
        String.mk (List.replicate 255 'é')⟩) (List.replicate 16 0) false).resp =
      ⟨400, Body.text "Comment is too long"⟩ ∧
    (UpdateClient [] "p1" (some ⟨"", "n", "1234567890", "a@b.co",
        String.mk (List.replicate 255 'é')⟩) false).resp =
      ⟨400, Body.text "Comment is too long"⟩ :=
  ⟨rfl, rfl, rfl, rfl, rfl⟩

/-- Claim C2 (amended): for create and update requests with valid phone
and email, the comment-length check passes exactly when the comment is at
most 255 UTF-8 **bytes** long (Go `len`); over 255 bytes both handlers
answer 400 "Comment is too long".  For ASCII comments bytes coincide with
characters, so 255 ASCII characters are accepted and 256 rejected. -/
theorem comment_byte_limit (db : List Client) (c : Client) (r : List Nat)
    (pathId : String) (hp : validatePhone c.phone = true)
    (he : validateEmail c.email = true) :
    (goLen c.comment ≤ 255 →
      (CreateClient db (some c) r false).resp.status = 201 ∧
      (UpdateClient db pathId (some c) false).resp.status ≠ 400) ∧
    (255 < goLen c.comment →
      (CreateClient db (some c) r false).resp = ⟨400, Body.text "Comment is too long"⟩ ∧
      (UpdateClient db pathId (some c) false).resp = ⟨400, Body.text "Comment is too long"⟩) := by
  constructor
  · intro hc
    have hc' : ¬ 255 < goLen c.comment := Nat.not_lt.mpr hc
    constructor
    · simp [CreateClient, hp, he, hc']
    · by_cases haff : affectedRows db pathId = 0 <;>
        simp [UpdateClient, hp, he, hc', haff]
  · intro hc
    exact ⟨by simp [CreateClient, hp, he, hc], by simp [UpdateClient, hp, he, hc]⟩

set_option maxRecDepth 8000 in
/-- Witness for the amended C2 at concrete ASCII inputs: a 255-character
ASCII comment is accepted by create (201) and a 256-character ASCII
comment is rejected (400). -/
theorem comment_byte_limit_witness :
    (CreateClient [] (some ⟨"", "n", "1234567890", "a@b.co",
        String.mk (List.replicate 255 'a')⟩) (List.replicate 16 0) false).resp.status = 201 ∧
    (CreateClient [] (some ⟨"", "n", "1234567890", "a@b.co",
        String.mk (List.replicate 256 'a')⟩) (List.replicate 16 0) false).resp =
      ⟨400, Body.text "Comment is too long"⟩ :=
  ⟨((comment_byte_limit [] ⟨"", "n", "1234567890", "a@b.co",
      String.mk (List.replicate 255 'a')⟩ (List.replicate 16 0) "p"
      (by decide) (by decide)).1 (by decide)).1,
   ((comment_byte_limit [] ⟨"", "n", "1234567890", "a@b.co",
      String.mk (List.replicate 256 'a')⟩ (List.replicate 16 0) "p"
      (by decide) (by decide)).2 (by decide)).1⟩

/-- Claim C3: a create request that passes validation answers 201 with
the record whose `id` is the freshly generated UUID string, overwriting
whatever id the body carried; the generated id is non-empty (the dashed
canonical form), and — under the freshness contract of the external
random-UUID generator, i.e. its output differs from the submitted id —
distinct from any submitted id.  The inserted row carries the same
generated id. -/
theorem createClient_fresh_id (db : List Client) (c : Client) (r : List Nat)
    (hp : validatePhone c.phone = true) (he : validateEmail c.email = true)
    (hcm : goLen c.comment ≤ 255) (hfresh : uuidString r ≠ c.id) :
    CreateClient db (some c) r false =
      ⟨⟨201, Body.json (encodeClient { c with id := uuidString r })⟩,
        [DbOp.insertOp { c with id := uuidString r }],
        db ++ [{ c with id := uuidString r }]⟩ ∧
    uuidString r ≠ "" ∧ uuidString r ≠ c.id := by
  refine ⟨?_, uuidString_ne_empty r, hfresh⟩
  have hc' : ¬ 255 < goLen c.comment := Nat.not_lt.mpr hcm
  simp [CreateClient, hp, he, hc']

/-- Witness for C3: creating with submitted id `"submitted-id"` and zero
random bytes answers 201 with the generated id
`00000000-0000-4000-8000-000000000000`, which is non-empty and distinct
from the submitted id. -/
theorem createClient_fresh_id_witness :
    CreateClient [] (some ⟨"submitted-id", "n", "1234567890", "a@b.co", ""⟩)
        (List.replicate 16 0) false =
      ⟨⟨201, Body.json (Json.obj
          [("id", Json.str "00000000-0000-4000-8000-000000000000"),
           ("name", Json.str "n"), ("phone", Json.str "1234567890"),
           ("email", Json.str "a@b.co")])⟩,
        [DbOp.insertOp ⟨"00000000-0000-4000-8000-000000000000", "n",
          "1234567890", "a@b.co", ""⟩],
        [⟨"00000000-0000-4000-8000-000000000000", "n", "1234567890", "a@b.co", ""⟩]⟩ ∧
    uuidString (List.replicate 16 0) ≠ "" ∧
    uuidString (List.replicate 16 0) ≠ "submitted-id" :=
  createClient_fresh_id [] ⟨"submitted-id", "n", "1234567890", "a@b.co", ""⟩
    (List.replicate 16 0) (by decide) (by decide) (by decide) (by decide)

/-- Claim C5: every create request that fails validation — undecodable
body, invalid phone or email, or over-long comment — answers 400 with an
empty store-operation trace and an unchanged table: no insert happens. -/
theorem createClient_fail_fast (db : List Client) (r : List Nat) (dbFail : Bool)
    (c : Client) :
    CreateClient db none r dbFail = ⟨⟨400, Body.text "Invalid request body"⟩, [], db⟩ ∧
    ((validatePhone c.phone = false ∨ validateEmail c.email = false) →
      CreateClient db (some c) r dbFail =
        ⟨⟨400, Body.text "Invalid phone or email format"⟩, [], db⟩) ∧
    (validatePhone c.phone = true → validateEmail c.email = true →
      255 < goLen c.comment →
      CreateClient db (some c) r dbFail =
        ⟨⟨400, Body.text "Comment is too long"⟩, [], db⟩) := by
  refine ⟨rfl, fun hv => ?_, fun hp he hc => ?_⟩
  · rcases hv with hv | hv
    · simp [CreateClient, hv]
    · simp [CreateClient, hv]
  · simp [CreateClient, hp, he, hc]

/-- Witness for C5 at the spec example: phone `"123"` is too short, so
create answers 400 and the trace and table show no insert was issued. -/
theorem createClient_fail_fast_witness :
    CreateClient [] (some ⟨"", "n", "123", "a@b.co", ""⟩) (List.replicate 16 0) false =
      ⟨⟨400, Body.text "Invalid phone or email format"⟩, [], []⟩ :=
  (createClient_fail_fast [] (List.replicate 16 0) false
    ⟨"", "n", "123", "a@b.co", ""⟩).2.1 (Or.inl (by decide))

/-- Claim C6: in the list handler, `limit` defaults to 10 and `offset` to
0 when the query parameter is absent (`queryGet` returns `""`); a present
parameter whose value does not parse as a non-negative integer makes the
handler answer 400 with the message naming that parameter
("Invalid limit value" / "Invalid offset value") and an empty
store-operation trace: no store query is issued. -/
theorem getClients_param_parsing (db : List Client) (q : List (String × String))
    (dbFail : Bool) :
    (queryGet q "limit" = "" → queryGet q "offset" = "" →
      GetClients db q false =
        (⟨200, Body.json (encodeClientSlice (some (listRows db 10 0)))⟩,
          [DbOp.selectList 10 0])) ∧
    (queryGet q "limit" ≠ "" → atoi (queryGet q "limit") = none →
      GetClients db q dbFail = (⟨400, Body.text "Invalid limit value"⟩, [])) ∧
    (∀ v : Int, atoi (queryGet q "limit") = some v → v < 0 →
      GetClients db q dbFail = (⟨400, Body.text "Invalid limit value"⟩, [])) ∧
    (∀ lv : Int, parseParam (queryGet q "limit") 10 = some lv →
      queryGet q "offset" ≠ "" → atoi (queryGet q "offset") = none →
      GetClients db q dbFail = (⟨400, Body.text "Invalid offset value"⟩, [])) ∧
    (∀ lv v : Int, parseParam (queryGet q "limit") 10 = some lv →
      atoi (queryGet q "offset") = some v → v < 0 →
      GetClients db q dbFail = (⟨400, Body.text "Invalid offset value"⟩, [])) := by
  refine ⟨fun hl ho => ?_, fun hl hat => ?_, fun v hat hneg => ?_,
    fun lv hlv ho hat => ?_, fun lv v hlv hat hneg => ?_⟩
  · simp [GetClients, parseParam, hl, ho]
  · simp [GetClients, parseParam, hl, hat]
  · have hne : queryGet q "limit" ≠ "" := by
      intro h
      rw [h] at hat
      simp [show atoi "" = none by decide] at hat
    simp [GetClients, parseParam, hne, hat, hneg]
  · simp only [GetClients, hlv]
    simp [parseParam, ho, hat]
  · have hone : queryGet q "offset" ≠ "" := by
      intro h
      rw [h] at hat
      simp [show atoi "" = none by decide] at hat
    simp only [GetClients, hlv]
    simp [parseParam, hone, hat, hneg]

/-- Witness for C6 at the spec example `limit=abc`: 400 naming `limit`,
no store query issued. -/
theorem getClients_param_parsing_witness :
    GetClients [] [("limit", "abc")] false =
      (⟨400, Body.text "Invalid limit value"⟩, []) :=
  (getClients_param_parsing [] [("limit", "abc")] false).2.1 (by decide) (by decide)

/-- Claim C7: every list request whose pagination parameters parse (or
are defaulted) and whose store query succeeds answers 200 with a JSON
array of the selected records — possibly empty, never `null` (the Go
handler starts from a non-nil `[]Client{}` slice). -/
theorem getClients_never_null (db : List Client) (q : List (String × String))
    (lv ov : Int) (hl : parseParam (queryGet q "limit") 10 = some lv)
    (ho : parseParam (queryGet q "offset") 0 = some ov) :
    GetClients db q false =
      (⟨200, Body.json (Json.arr ((listRows db lv ov).map encodeClient))⟩,
        [DbOp.selectList lv ov]) ∧
    Json.arr ((listRows db lv ov).map encodeClient) ≠ Json.null := by
  refine ⟨by simp [GetClients, hl, ho, encodeClientSlice], fun h => Json.noConfusion h⟩

/-- Witness for C7 on an empty store with defaulted parameters: the body
is the empty JSON array, not `null`. -/
theorem getClients_never_null_witness :
    GetClients [] [] false = (⟨200, Body.json (Json.arr [])⟩, [DbOp.selectList 10 0]) ∧
    Json.arr ((listRows ([] : List Client) 10 0).map encodeClient) ≠ Json.null :=
  getClients_never_null [] [] 10 0 (by decide) (by decide)
